import Mathlib

/-
Verification of the incremental indexing and retrieval pipeline of
MyVaultAgent (src/embeddings.py and src/main.py) against its design
specification. The Python classes are shallowly embedded: the mutable
`EmbeddingsManager` state (the `index_state` dict and the Chroma
collection) becomes an explicit `StoreState` record threaded through the
operations, filesystem and provider effects become an explicit
environment record, and exceptions become an `ok` flag on the result
paired with the state at the point the exception propagated.
-/

namespace MyVault

/-- Result of `EmbeddingsManager._get_file_info` (embeddings.py:79-90):
size and mtime from `os.stat` plus the MD5 content hash. The hash value
is carried as abstract data; the claims only compare it for equality. -/
structure FileInfo where
  hash : String
  size : Nat
  mtime : Int
deriving DecidableEq, Repr

/-- The `index_state` dict of `EmbeddingsManager` (embeddings.py:45):
a mapping file path -> FileInfo, modelled as an association list whose
lookup takes the first matching key. -/
abbrev IndexState := List (String × FileInfo)

/-- Python dict assignment `index_state[file_path] = file_info`
(embeddings.py:154): overwrite the entry for the key. -/
def setState (st : IndexState) (path : String) (fi : FileInfo) : IndexState :=
  (path, fi) :: st.filter (fun e => e.1 != path)

/-- The metadata attached to each chunk by `add_or_update_document`
(embeddings.py:137-142). -/
structure ChunkMeta where
  file_path : String
  file_hash : String
  chunk_index : Nat
  total_chunks : Nat
deriving DecidableEq, Repr

/-- One persisted record of the Chroma collection: id, embedding vector,
chunk text, metadata (embeddings.py:146-151). Embedding components are
abstract integers; no claim inspects their values. -/
structure ChunkRecord where
  id : String
  embedding : List Int
  text : String
  meta : ChunkMeta
deriving DecidableEq, Repr

/-- The mutable state of `EmbeddingsManager`: the in-memory
`index_state` dict and the Chroma collection contents. -/
structure StoreState where
  index_state : IndexState
  collection : List ChunkRecord
deriving DecidableEq, Repr

/-- `collection.delete(where={"file_path": file_path})`
(embeddings.py:127-129 and main.py:117-119): drop every record whose
metadata file_path equals the given path. -/
def deleteByPath (col : List ChunkRecord) (path : String) : List ChunkRecord :=
  col.filter (fun r => r.meta.file_path != path)

/-- `EmbeddingsManager.is_file_indexed` (embeddings.py:92-111). The
current file information is an `Option FileInfo`: `none` models
`_get_file_info` returning `None` because the file could not be
stat'ed, read or hashed. Any such failure, and any missing stored
entry, yields `false`; otherwise the stored hash, size and mtime are
all compared with the current ones. -/
def is_file_indexed (current : Option FileInfo) (st : IndexState) (path : String) : Bool :=
  match current with
  | none => false
  | some ci =>
    match st.lookup path with
    | some si => si.hash == ci.hash && si.size == ci.size && si.mtime == ci.mtime
    | none => false

/-- The reindex decision of the pipeline: `add_or_update_document`
proceeds exactly when `is_file_indexed` is false (embeddings.py:122-124),
so the spec's `needs_reindex` is its negation. -/
def needs_reindex (current : Option FileInfo) (st : IndexState) (path : String) : Bool :=
  !(is_file_indexed current st path)

/-- The effectful environment one call to `add_or_update_document`
runs in: the file information `_get_file_info` observes (stable for the
duration of the call), the outcome of
`ollama.get_embeddings_batch(chunks)` (`none` models the call raising),
and whether `collection.add` succeeds. -/
structure SyncEnv where
  fileInfo : Option FileInfo
  embedResult : Option (List (List Int))
  insertOk : Bool
deriving Repr

/-- The chunk ids `f"{file_path}_{i}"` (embeddings.py:150). -/
def chunkId (path : String) (i : Nat) : String :=
  path ++ "_" ++ toString i

/-- The records inserted by `collection.add` for one document
(embeddings.py:134-151): for i in 0..len(chunks)-1, metadata
(file_path, file_hash, chunk_index=i, total_chunks=len(chunks)) and id
`chunkId path i`. -/
def newRecords (path : String) (fi : FileInfo) (chunks : List String)
    (embs : List (List Int)) : List ChunkRecord :=
  (List.range chunks.length).map (fun i =>
    { id := chunkId path i
      embedding := embs.getD i []
      text := chunks.getD i ""
      meta := { file_path := path, file_hash := fi.hash, chunk_index := i,
                total_chunks := chunks.length } })

/-- Outcome of one `add_or_update_document` call: whether the call
returned normally (`ok`), the state of the manager when it returned or
when the exception propagated, and which effects were performed. -/
structure SyncResult where
  ok : Bool
  state : StoreState
  embedCalled : Bool
  deleteCalled : Bool
  insertCalled : Bool
deriving DecidableEq, Repr

/-- `EmbeddingsManager.add_or_update_document` (embeddings.py:113-160),
step for step: obtain file info (raise if unavailable); return early if
`is_file_indexed`; delete the old records for the path; call the
embedding provider (an exception here propagates with the deletion
already done); add the new records; finally update `index_state`. -/
def add_or_update_document (env : SyncEnv) (s : StoreState) (path : String)
    (chunks : List String) : SyncResult :=
  match env.fileInfo with
  | none => ⟨false, s, false, false, false⟩
  | some fi =>
    if is_file_indexed env.fileInfo s.index_state path then
      ⟨true, s, false, false, false⟩
    else
      let s1 : StoreState := { s with collection := deleteByPath s.collection path }
      match env.embedResult with
      | none => ⟨false, s1, true, true, false⟩
      | some embs =>
        if env.insertOk then
          ⟨true,
           { index_state := setState s1.index_state path fi,
             collection := s1.collection ++ newRecords path fi chunks embs },
           true, true, true⟩
        else
          ⟨false, s1, true, true, true⟩

/-- Python `str.endswith(suffix)` (used at main.py:59, 88, 108), as a
suffix check on the character sequence. -/
def endswith (s suffix : String) : Bool :=
  List.isSuffixOf suffix.data s.data

/-- One filesystem modify event as seen by `MarkdownHandler.on_modified`
(main.py:55): timestamp of arrival (`time.time()` at handling, as an
integer), source path, directory flag. -/
structure ModEvent where
  time : Int
  src_path : String
  is_directory : Bool
deriving DecidableEq, Repr

/-- `MarkdownHandler.on_modified` (main.py:55-82) up to the point where
it invokes `add_or_update_document`: returns the updated
`last_modified` dict and whether the sync was invoked. The guards are
the directory check, the `.md` suffix check and the exclusion check;
then the event is dropped when less than `debounce` has elapsed since
the timestamp stored for the path (default 0), and otherwise the
timestamp is overwritten and the sync runs immediately. -/
def on_modified (debounce : Int) (excluded : String → Bool)
    (lm : List (String × Int)) (e : ModEvent) : (List (String × Int)) × Bool :=
  if e.is_directory then (lm, false)
  else if !(endswith e.src_path ".md") then (lm, false)
  else if excluded e.src_path then (lm, false)
  else
    let last := (lm.lookup e.src_path).getD 0
    if e.time - last < debounce then (lm, false)
    else ((e.src_path, e.time) :: lm.filter (fun p => p.1 != e.src_path), true)

/-- Feed a sequence of modify events through the handler, collecting the
events on which `on_modified` invoked the sync. -/
def run_modified (debounce : Int) (excluded : String → Bool)
    (lm : List (String × Int)) : List ModEvent → (List (String × Int)) × List ModEvent
  | [] => (lm, [])
  | e :: es =>
    let step := on_modified debounce excluded lm e
    let rest := run_modified debounce excluded step.1 es
    (rest.1, if step.2 then e :: rest.2 else rest.2)

/-- `MarkdownHandler.on_deleted` (main.py:104-121): after the directory,
`.md` and exclusion guards it calls `collection.delete` for the path.
It touches nothing else: in particular `index_state` is left as is. -/
def on_deleted (excluded : String → Bool) (s : StoreState) (isDir : Bool)
    (path : String) : StoreState :=
  if isDir then s
  else if !(endswith path ".md") then s
  else if excluded path then s
  else { s with collection := deleteByPath s.collection path }

/-- `scipy.special.softmax` on a vector, as used at embeddings.py:170:
each component x becomes exp x divided by the sum of exp over all
components. Real-number idealisation of the floating-point computation. -/
noncomputable def softmax (l : List ℝ) : List ℝ :=
  l.map (fun x => Real.exp x / (l.map Real.exp).sum)

/-- `numpy.min` over a nonempty vector (embeddings.py:173); 0 on the
empty list, which the source never reaches. -/
noncomputable def listMin : List ℝ → ℝ
  | [] => 0
  | [x] => x
  | x :: y :: t => min x (listMin (y :: t))

/-- `numpy.max` over a nonempty vector (embeddings.py:173); 0 on the
empty list, which the source never reaches. -/
noncomputable def listMax : List ℝ → ℝ
  | [] => 0
  | [x] => x
  | x :: y :: t => max x (listMax (y :: t))

/-- The intermediate value `softmax(-distances)` of
`EmbeddingsManager._calculate_relevance` (embeddings.py:170). -/
noncomputable def rawSoftmax (ds : List ℝ) : List ℝ :=
  softmax (ds.map (fun d => -d))

/-- The softmax denominator: the sum of exp over the negated distances. -/
noncomputable def expSum (ds : List ℝ) : ℝ :=
  ((ds.map (fun d => -d)).map Real.exp).sum

/-- `relevance.min()` at embeddings.py:173. -/
noncomputable def relMin (ds : List ℝ) : ℝ :=
  listMin (rawSoftmax ds)

/-- `relevance.max()` at embeddings.py:173. -/
noncomputable def relMax (ds : List ℝ) : ℝ :=
  listMax (rawSoftmax ds)

/-- `EmbeddingsManager._calculate_relevance` (embeddings.py:162-175):
softmax over the negated distances, then the min-max rescale
`(relevance - relevance.min()) / (relevance.max() - relevance.min())`.
The division is the total real division (x / 0 = 0); where the source's
denominator is 0, numpy instead yields NaN. -/
noncomputable def calculate_relevance (ds : List ℝ) : List ℝ :=
  (rawSoftmax ds).map (fun x => (x - relMin ds) / (relMax ds - relMin ds))

/-- A stale document with one previously indexed chunk whose re-sync
hits an embedding failure: the environment observes new file info
`⟨"h2", 2, 1⟩` against the stored `⟨"h1", 1, 0⟩`, and
`get_embeddings_batch` raises. -/
def embedFailResult : SyncResult :=
  add_or_update_document ⟨some ⟨"h2", 2, 1⟩, none, true⟩
    ⟨[("a.md", ⟨"h1", 1, 0⟩)],
     [⟨chunkId "a.md" 0, [1], "old", ⟨"a.md", "h1", 0, 1⟩⟩]⟩
    "a.md" ["new"]

/-- Three modify events for `a.md` at times 100, 101, 102: a burst
whose inter-event gaps of 1 are smaller than DEBOUNCE_TIME = 2. -/
def burstEvents : List ModEvent :=
  [⟨100, "a.md", false⟩, ⟨101, "a.md", false⟩, ⟨102, "a.md", false⟩]

/-- State after a deletion event for the indexed document `a.md`. -/
def afterDeleteState : StoreState :=
  on_deleted (fun _ => false)
    ⟨[("a.md", ⟨"h1", 1, 0⟩)],
     [⟨chunkId "a.md" 0, [1], "old", ⟨"a.md", "h1", 0, 1⟩⟩]⟩
    false "a.md"

/-- State after a first sync attempt of `a.md` during which the
embedding provider raised. -/
def failedFirstState : StoreState :=
  (add_or_update_document ⟨some ⟨"h1", 1, 0⟩, none, true⟩ ⟨[], []⟩ "a.md" ["c"]).state

/-- Claim C1: the spec requires that a failure of embedding generation
during a sync never leaves the old chunk records deleted with no new
records inserted. The code violates this: `add_or_update_document`
deletes the old records (embeddings.py:127) before calling the provider
(embeddings.py:132), so when the provider raises on a stale document
the call fails with the collection holding neither the old nor the new
version of the document. -/
theorem sync_deletes_before_embedding :
    embedFailResult.embedCalled = true ∧ embedFailResult.ok = false ∧
      embedFailResult.state.collection = [] := by decide

/-- Claim C2: the spec requires trailing-edge debouncing (one sync per
burst, fired after a quiet period following the last event). The code
violates this: `on_modified` is a leading-edge rate limiter, so the
burst at times 100, 101, 102 with gaps 1 < DEBOUNCE_TIME = 2 triggers
two syncs, at times 100 and 102 — the first immediately at the first
event of the burst, with no quiet period at all. -/
theorem modify_events_rate_limited :
    (run_modified 2 (fun _ => false) [] burstEvents).2.map ModEvent.time = [100, 102] := by
  decide

/-- Claim C3: the spec requires the remove operation to delete the
document's records from the vector store and to drop its Change
Detector entry. The code violates the second half: `on_deleted` only
calls `collection.delete`, leaving the `index_state` entry in place, so
a re-creation of `a.md` with identical content, size and mtime
short-circuits in `add_or_update_document` (no embedding call, nothing
inserted) and the document stays unindexed. -/
theorem on_deleted_keeps_state_entry :
    afterDeleteState.collection = [] ∧
      afterDeleteState.index_state = [("a.md", ⟨"h1", 1, 0⟩)] ∧
      (add_or_update_document ⟨some ⟨"h1", 1, 0⟩, some [[1]], true⟩
          afterDeleteState "a.md" ["old"]).embedCalled = false ∧
      (add_or_update_document ⟨some ⟨"h1", 1, 0⟩, some [[1]], true⟩
          afterDeleteState "a.md" ["old"]).state.collection = [] := by
  decide

/-- Claim C10: `is_file_indexed` is total at its interface: when the
file cannot be stat'ed, read or hashed (`_get_file_info` yields no
current information) it returns `false` rather than propagating an
error, and in the embedding every run of the function produces a
boolean. -/
theorem is_file_indexed_total (st : IndexState) (path : String) :
    is_file_indexed none st path = false := rfl

/-- The comparison at embeddings.py:104-106 is false exactly when one
of the three stored fields disagrees with the current one. -/
lemma indexed_check_false_iff (si ci : FileInfo) :
    (si.hash == ci.hash && si.size == ci.size && si.mtime == ci.mtime) = false ↔
      si.hash ≠ ci.hash ∨ si.size ≠ ci.size ∨ si.mtime ≠ ci.mtime := by
  simp [Bool.and_eq_false_iff, beq_eq_false_iff_ne]
  tauto

/-- Claim C6: for a readable file, the pipeline's reindex decision is
true exactly when no stored entry exists for the path or at least one
of the stored hash, size and mtime differs from the current values; in
particular an mtime-only difference forces a reindex. -/
theorem needs_reindex_iff_mismatch (ci : FileInfo) (st : IndexState) (path : String) :
    needs_reindex (some ci) st path = true ↔
      st.lookup path = none ∨
        ∃ si, st.lookup path = some si ∧
          (si.hash ≠ ci.hash ∨ si.size ≠ ci.size ∨ si.mtime ≠ ci.mtime) := by
  unfold needs_reindex is_file_indexed
  cases h : st.lookup path with
  | none => simp
  | some si =>
    rw [Bool.not_eq_true', indexed_check_false_iff]
    constructor
    · intro hc
      exact Or.inr ⟨si, rfl, hc⟩
    · rintro (hnone | ⟨si2, hsi2, hmm⟩)
      · simp at hnone
      · injection hsi2 with hEq
        subst hEq
        exact hmm

/-- The mtime edge case of claim C6 at a concrete input: stored and
current information agree on hash and size but not on mtime, and the
document is flagged for reindexing. -/
theorem needs_reindex_iff_mismatch_witness :
    needs_reindex (some ⟨"h1", 1, 1⟩) [("a.md", ⟨"h1", 1, 0⟩)] "a.md" = true :=
  (needs_reindex_iff_mismatch ⟨"h1", 1, 1⟩ [("a.md", ⟨"h1", 1, 0⟩)] "a.md").mpr
    (Or.inr ⟨⟨"h1", 1, 0⟩, rfl, Or.inr (Or.inr (by decide))⟩)

/-- Claim C7: whenever `add_or_update_document` fails — file info
unavailable, embedding generation raising, or the store insert
failing — the `index_state` entry of the document is neither created
nor updated, because the state update (embeddings.py:154) comes only
after a successful `collection.add`. -/
theorem failed_sync_preserves_index_state (env : SyncEnv) (s : StoreState)
    (path : String) (chunks : List String)
    (hfail : (add_or_update_document env s path chunks).ok = false) :
    (add_or_update_document env s path chunks).state.index_state = s.index_state := by
  cases hfi : env.fileInfo with
  | none => simp [add_or_update_document, hfi]
  | some fi =>
    cases hidx : is_file_indexed (some fi) s.index_state path with
    | true => simp [add_or_update_document, hfi, hidx] at hfail
    | false =>
      cases hemb : env.embedResult with
      | none => simp [add_or_update_document, hfi, hidx, hemb]
      | some embs =>
        cases hins : env.insertOk with
        | true => simp [add_or_update_document, hfi, hidx, hemb, hins] at hfail
        | false => simp [add_or_update_document, hfi, hidx, hemb, hins]

/-- Claim C7 at a concrete input: a stale document whose embedding call
raises keeps its old `index_state` entry untouched. -/
theorem failed_sync_preserves_index_state_witness :
    (add_or_update_document ⟨some ⟨"h2", 2, 1⟩, none, true⟩
        ⟨[("a.md", ⟨"h1", 1, 0⟩)], []⟩ "a.md" ["c"]).state.index_state
      = [("a.md", ⟨"h1", 1, 0⟩)] :=
  failed_sync_preserves_index_state _ _ _ _ (by decide)

/-- After a completed full sync, the document reads as indexed: the
freshly written `index_state` entry matches the file information the
sync observed. -/
lemma is_file_indexed_setState (st : IndexState) (path : String) (fi : FileInfo) :
    is_file_indexed (some fi) (setState st path fi) path = true := by
  simp [is_file_indexed, setState, List.lookup]

/-- Claim C5, counterexample to the unconditional statement: if the
first of two consecutive sync calls fails (provider down), the file
being unchanged between the calls, the second call does invoke the
embedding provider again — by design the failed first call left the
document flagged for retry. -/
theorem second_sync_embeds_after_failed_first :
    (add_or_update_document ⟨some ⟨"h1", 1, 0⟩, some [[1]], true⟩
        failedFirstState "a.md" ["c"]).embedCalled = true := by decide

/-- Claim C5 as amended: when the first of two consecutive sync calls
for an unchanged file returned successfully, the second call
short-circuits — it returns successfully with the state untouched,
calling neither the embedding provider nor the store delete or add; so
whatever embedding work the first call performed is performed exactly
once across the two calls. -/
theorem sync_idempotent_after_success (env1 env2 : SyncEnv) (s : StoreState)
    (path : String) (chunks1 chunks2 : List String) (fi : FileInfo)
    (h1 : env1.fileInfo = some fi) (h2 : env2.fileInfo = some fi)
    (hok : (add_or_update_document env1 s path chunks1).ok = true) :
    add_or_update_document env2 (add_or_update_document env1 s path chunks1).state
        path chunks2
      = ⟨true, (add_or_update_document env1 s path chunks1).state,
         false, false, false⟩ := by
  cases hidx : is_file_indexed (some fi) s.index_state path with
  | true => simp [add_or_update_document, h1, h2, hidx]
  | false =>
    cases hemb : env1.embedResult with
    | none => simp [add_or_update_document, h1, hidx, hemb] at hok
    | some embs =>
      cases hins : env1.insertOk with
      | false => simp [add_or_update_document, h1, hidx, hemb, hins] at hok
      | true =>
        simp [add_or_update_document, h1, h2, hidx, hemb, hins,
          is_file_indexed_setState]

/-- Claim C5's amended statement at a concrete input: after a
successful first sync of `a.md`, the immediate re-sync with the file
unchanged returns with no provider call, no delete and no insert. -/
theorem sync_idempotent_after_success_witness :
    add_or_update_document ⟨some ⟨"h1", 1, 0⟩, some [[1]], true⟩
        (add_or_update_document ⟨some ⟨"h1", 1, 0⟩, some [[1]], true⟩
          ⟨[], []⟩ "a.md" ["c"]).state "a.md" ["c"]
      = ⟨true, (add_or_update_document ⟨some ⟨"h1", 1, 0⟩, some [[1]], true⟩
          ⟨[], []⟩ "a.md" ["c"]).state, false, false, false⟩ :=
  sync_idempotent_after_success _ _ _ _ _ _ ⟨"h1", 1, 0⟩ rfl rfl (by decide)

/-- After `collection.delete(where={"file_path": path})`, no record for
the path remains. -/
lemma filter_deleteByPath (col : List ChunkRecord) (path : String) :
    (deleteByPath col path).filter (fun r => r.meta.file_path == path) = [] := by
  apply List.filter_eq_nil_iff.mpr
  intro a ha
  have hne := (List.mem_filter.mp ha).2
  simp at hne ⊢
  exact hne

/-- Every record inserted for a document carries that document's path. -/
lemma filter_newRecords (path : String) (fi : FileInfo) (chunks : List String)
    (embs : List (List Int)) :
    (newRecords path fi chunks embs).filter (fun r => r.meta.file_path == path)
      = newRecords path fi chunks embs := by
  apply List.filter_eq_self.mpr
  intro a ha
  simp only [newRecords, List.mem_map] at ha
  obtain ⟨i, hi, rfl⟩ := ha
  simp

/-- The chunk indices of the inserted records are 0..len(chunks)-1 in
order. -/
lemma newRecords_map_index (path : String) (fi : FileInfo) (chunks : List String)
    (embs : List (List Int)) :
    (newRecords path fi chunks embs).map (fun r => r.meta.chunk_index)
      = List.range chunks.length := by
  simp only [newRecords, List.map_map]
  exact List.map_id _

/-- Claim C9: after a sync that performed the insert and returned
successfully, the records whose metadata file_path equals the document
are exactly the freshly inserted ones: their chunk indices form the
range 0..N-1 for N = len(chunks), and each carries the single file hash
observed by this sync, total_chunks = N, and the id derived from the
path and its chunk index. -/
theorem sync_single_fingerprint (env : SyncEnv) (s : StoreState) (path : String)
    (chunks : List String) (fi : FileInfo)
    (hfi : env.fileInfo = some fi)
    (hok : (add_or_update_document env s path chunks).ok = true)
    (hins : (add_or_update_document env s path chunks).insertCalled = true) :
    (((add_or_update_document env s path chunks).state.collection.filter
          (fun r => r.meta.file_path == path)).map (fun r => r.meta.chunk_index)
        = List.range chunks.length) ∧
      ∀ r ∈ (add_or_update_document env s path chunks).state.collection.filter
          (fun r => r.meta.file_path == path),
        r.meta.file_hash = fi.hash ∧ r.meta.total_chunks = chunks.length ∧
          r.id = chunkId path r.meta.chunk_index := by
  cases hidx : is_file_indexed (some fi) s.index_state path with
  | true => simp [add_or_update_document, hfi, hidx] at hins
  | false =>
    cases hemb : env.embedResult with
    | none => simp [add_or_update_document, hfi, hidx, hemb] at hins
    | some embs =>
      cases hins2 : env.insertOk with
      | false => simp [add_or_update_document, hfi, hidx, hemb, hins2] at hok
      | true =>
        have hst : (add_or_update_document env s path chunks).state.collection
            = deleteByPath s.collection path ++ newRecords path fi chunks embs := by
          simp [add_or_update_document, hfi, hidx, hemb, hins2]
        rw [hst, List.filter_append, filter_deleteByPath, filter_newRecords,
          List.nil_append]
        refine ⟨newRecords_map_index path fi chunks embs, ?_⟩
        intro r hr
        simp only [newRecords, List.mem_map] at hr
        obtain ⟨i, hi, rfl⟩ := hr
        exact ⟨rfl, rfl, rfl⟩

/-- Claim C9 at a concrete input: syncing `a.md` with two chunks over a
collection still holding a stray old record for `a.md` leaves exactly
the two new records for the path, with chunk indices 0 and 1. -/
theorem sync_single_fingerprint_witness :
    (((add_or_update_document ⟨some ⟨"h1", 1, 0⟩, some [[1], [2]], true⟩
          ⟨[], [⟨"junk", [], "", ⟨"a.md", "h0", 5, 7⟩⟩]⟩
          "a.md" ["c1", "c2"]).state.collection.filter
        (fun r => r.meta.file_path == "a.md")).map (fun r => r.meta.chunk_index))
      = List.range 2 :=
  (sync_single_fingerprint _ _ _ _ _ rfl (by decide) (by decide)).1

/-- The softmax over the negated distances, in pointwise form. -/
lemma rawSoftmax_eq (ds : List ℝ) :
    rawSoftmax ds = ds.map (fun d => Real.exp (-d) / expSum ds) := by
  unfold rawSoftmax softmax expSum
  rw [List.map_map]
  rfl

/-- The rescaled relevance list, in pointwise form. -/
lemma calculate_relevance_eq (ds : List ℝ) :
    calculate_relevance ds
      = ds.map (fun d =>
          (Real.exp (-d) / expSum ds - relMin ds) / (relMax ds - relMin ds)) := by
  unfold calculate_relevance
  rw [rawSoftmax_eq, List.map_map]
  rfl

/-- The softmax denominator is positive for a nonempty distance list. -/
lemma expSum_pos (ds : List ℝ) (h : ds ≠ []) : 0 < expSum ds := by
  cases ds with
  | nil => exact absurd rfl h
  | cons d t =>
    have h2 : 0 ≤ ((t.map (fun d => -d)).map Real.exp).sum := by
      apply List.sum_nonneg
      intro x hx
      obtain ⟨y, hy, rfl⟩ := List.mem_map.mp hx
      exact (Real.exp_pos _).le
    have h1 : 0 < Real.exp (-d) := Real.exp_pos _
    simp only [expSum, List.map_cons, List.sum_cons]
    linarith

/-- `numpy.min` bounds every element from below. -/
lemma listMin_le {l : List ℝ} {a : ℝ} (h : a ∈ l) : listMin l ≤ a := by
  induction l with
  | nil => simp at h
  | cons x t ih =>
    cases t with
    | nil =>
      have hax : a = x := by simpa using h
      subst hax
      exact le_refl _
    | cons y u =>
      have hunf : listMin (x :: y :: u) = min x (listMin (y :: u)) := rfl
      rcases List.mem_cons.mp h with rfl | hmem
      · rw [hunf]
        exact min_le_left _ _
      · rw [hunf]
        exact le_trans (min_le_right _ _) (ih hmem)

/-- `numpy.max` bounds every element from above. -/
lemma le_listMax {l : List ℝ} {a : ℝ} (h : a ∈ l) : a ≤ listMax l := by
  induction l with
  | nil => simp at h
  | cons x t ih =>
    cases t with
    | nil =>
      have hax : a = x := by simpa using h
      subst hax
      exact le_refl _
    | cons y u =>
      have hunf : listMax (x :: y :: u) = max x (listMax (y :: u)) := rfl
      rcases List.mem_cons.mp h with rfl | hmem
      · rw [hunf]
        exact le_max_left _ _
      · rw [hunf]
        exact le_trans (ih hmem) (le_max_right _ _)

/-- Two distinct members force a strictly positive min-max spread. -/
lemma listMin_lt_listMax {l : List ℝ} {a b : ℝ} (ha : a ∈ l) (hb : b ∈ l)
    (hab : a ≠ b) : listMin l < listMax l := by
  rcases lt_or_le (listMin l) (listMax l) with h | h
  · exact h
  · exact absurd
      (le_antisymm ((le_listMax ha).trans (h.trans (listMin_le hb)))
        ((le_listMax hb).trans (h.trans (listMin_le ha)))) hab

/-- Claim C4: the spec defines the scorer's output as 1.0 per result
when all distances are equal or there is a single result. The code has
no guard for this: at distances [1, 1] (and at the singleton [5]) the
min-max rescale denominator `relevance.max() - relevance.min()` is 0,
so the source evaluates 0/0 — NaN under numpy, 0 under the total real
division of the embedding — and in no reading the specified 1.0. -/
theorem relevance_degenerate_div_zero :
    relMax [(1 : ℝ), 1] - relMin [(1 : ℝ), 1] = 0 ∧
      calculate_relevance [(1 : ℝ), 1] = [0, 0] ∧
      calculate_relevance [(5 : ℝ)] = [0] := by
  refine ⟨?_, ?_, ?_⟩ <;>
    simp [calculate_relevance, relMin, relMax, rawSoftmax, softmax, listMin, listMax]

/-- Claim C8: on at least two distances that are not all equal, the
scorer returns one score per distance, every score lies in [0, 1], a
larger distance never gets a larger score, and equal distances get
equal scores. -/
theorem relevance_monotone_bounded (ds : List ℝ) (hlen : 2 ≤ ds.length)
    (hne : ∃ a ∈ ds, ∃ b ∈ ds, a ≠ b) :
    (calculate_relevance ds).length = ds.length ∧
      (∀ x ∈ calculate_relevance ds, 0 ≤ x ∧ x ≤ 1) ∧
      ∀ (i j : ℕ) (hi : i < ds.length) (hj : j < ds.length)
        (hi2 : i < (calculate_relevance ds).length)
        (hj2 : j < (calculate_relevance ds).length),
        (ds.get ⟨i, hi⟩ ≤ ds.get ⟨j, hj⟩ →
          (calculate_relevance ds).get ⟨j, hj2⟩
            ≤ (calculate_relevance ds).get ⟨i, hi2⟩) ∧
        (ds.get ⟨i, hi⟩ = ds.get ⟨j, hj⟩ →
          (calculate_relevance ds).get ⟨i, hi2⟩
            = (calculate_relevance ds).get ⟨j, hj2⟩) := by
  obtain ⟨a, ha, b, hb, hab⟩ := hne
  have hnil : ds ≠ [] := by
    rintro rfl
    simp at ha
  have hS : 0 < expSum ds := expSum_pos ds hnil
  have hS0 : expSum ds ≠ 0 := ne_of_gt hS
  have hmem : ∀ x ∈ ds, Real.exp (-x) / expSum ds ∈ rawSoftmax ds := by
    intro x hx
    rw [rawSoftmax_eq]
    exact List.mem_map_of_mem _ hx
  have hinj : Real.exp (-a) / expSum ds ≠ Real.exp (-b) / expSum ds := by
    intro heq
    apply hab
    field_simp at heq
    exact heq
  have hlt : relMin ds < relMax ds :=
    listMin_lt_listMax (hmem a ha) (hmem b hb) hinj
  have hd : 0 < relMax ds - relMin ds := sub_pos.mpr hlt
  have hget : ∀ (k : ℕ) (hk : k < ds.length)
      (hk2 : k < (calculate_relevance ds).length),
      (calculate_relevance ds).get ⟨k, hk2⟩
        = (Real.exp (-(ds.get ⟨k, hk⟩)) / expSum ds - relMin ds)
            / (relMax ds - relMin ds) := by
    intro k hk hk2
    rw [List.get_eq_getElem, List.get_eq_getElem,
      List.getElem_of_eq (calculate_relevance_eq ds) hk2, List.getElem_map]
  refine ⟨?_, ?_, ?_⟩
  · rw [calculate_relevance_eq]
    exact List.length_map ds _
  · intro x hx
    rw [calculate_relevance_eq] at hx
    obtain ⟨d, hdmem, rfl⟩ := List.mem_map.mp hx
    have hlo : relMin ds ≤ Real.exp (-d) / expSum ds := listMin_le (hmem d hdmem)
    have hhi : Real.exp (-d) / expSum ds ≤ relMax ds := le_listMax (hmem d hdmem)
    constructor
    · exact div_nonneg (sub_nonneg.mpr hlo) hd.le
    · rw [div_le_one hd]
      linarith
  · intro i j hi hj hi2 hj2
    constructor
    · intro hij
      rw [hget i hi hi2, hget j hj hj2]
      rw [div_le_div_iff_of_pos_right hd]
      apply sub_le_sub_right
      rw [div_le_div_iff_of_pos_right hS]
      exact Real.exp_le_exp.mpr (neg_le_neg hij)
    · intro hij
      rw [hget i hi hi2, hget j hj hj2, hij]

/-- Claim C8 at a concrete input: the scorer returns one score per
distance for the two distinct distances [0, 1]. -/
theorem relevance_monotone_bounded_witness :
    (calculate_relevance [(0 : ℝ), 1]).length = 2 :=
  (relevance_monotone_bounded [(0 : ℝ), 1] (le_refl 2)
    ⟨0, by simp, 1, by simp, zero_ne_one⟩).1

end MyVault
